import Mathlib

/-!
Verification development for the `ztraining` activity pipeline
(`src/ztraining/ztraining.py`).

Numeric cells of the pandas DataFrames are modelled as `Option ℚ`:
`none` stands for a missing value (`NaN`), `some q` for the float `q`.
Column operations become `List` operations; the per-row records are
explicit structures.  Fallible steps (Python `assert` / `KeyError`)
are modelled with `Except`.

Rounding notes: `numpy`/pandas round floats half-to-even; the model
rounds half-up via Mathlib `round`.  No property below depends on tie
behaviour, and none of the concrete inputs used hit a tie.
-/

set_option maxHeartbeats 1000000
set_option maxRecDepth 100000

/-- Round a rational to 1 decimal place (mirrors `round(x, 1)`). -/
def round1 (q : ℚ) : ℚ := (round (q * 10) : ℤ) / 10

/-- Round a rational to 2 decimal places (mirrors `.round(2)`). -/
def round2 (q : ℚ) : ℚ := (round (q * 100) : ℤ) / 100

/-- Round a rational to 3 decimal places (mirrors `.round(3)`). -/
def round3 (q : ℚ) : ℚ := (round (q * 1000) : ℤ) / 1000

/-- Maximum of a column with missing values, pandas style: `NaN`
entries are skipped, and the maximum of an all-missing column is
missing (`df[col].max()`). -/
def optMax (l : List (Option ℚ)) : Option ℚ :=
  l.foldl
    (fun acc x =>
      match acc, x with
      | none, v => v
      | some a, none => some a
      | some a, some v => some (max a v))
    none

/-- Minimum of a column with missing values, pandas style (`df[col].min()`). -/
def optMin (l : List (Option ℚ)) : Option ℚ :=
  l.foldl
    (fun acc x =>
      match acc, x with
      | none, v => v
      | some a, none => some a
      | some a, some v => some (min a v))
    none

/-- Inclusive running sums, mirroring `Series.cumsum()` on a column
without missing values. -/
def cumsumAux (acc : ℚ) : List ℚ → List ℚ
  | [] => []
  | x :: rest => (acc + x) :: cumsumAux (acc + x) rest

/-- Running totals of a list: `cumsum [a, b, c] = [a, a+b, a+b+c]`. -/
def cumsum (l : List ℚ) : List ℚ := cumsumAux 0 l

/-- Mean of the non-missing values in a window; missing when the
window holds no observation (pandas rolling mean with
`min_periods=1`). -/
def windowMean (ws : List (Option ℚ)) : Option ℚ :=
  let vs := ws.filterMap id
  if vs.isEmpty then none else some (vs.sum / vs.length)

/-- Trailing rolling mean over windows of `k` samples with
`min_periods=1`, mirroring `Series.rolling(k, min_periods=1).mean()`. -/
def rollMean (k : ℕ) (xs : List (Option ℚ)) : List (Option ℚ) :=
  (List.range xs.length).map (fun i => windowMean ((xs.take (i + 1)).drop (i + 1 - k)))

/-- Modelled from the spec: the external geodesic library call
`geopy.distance.distance((lat1, lon1), (lat2, lon2)).m` is treated as
a pure function `f` of the four coordinates; a missing coordinate fed
to the library behaves as IEEE `NaN` and propagates to a missing
result. -/
def geoLib (f : ℚ → ℚ → ℚ → ℚ → ℚ) (lat1 lon1 lat2 lon2 : Option ℚ) : Option ℚ :=
  match lat1, lon1, lat2, lon2 with
  | some a, some b, some c, some d => some (f a b c d)
  | _, _, _, _ => none

/-- Source lines 790-803: `ZwiftTraining.measure_distance`.  Returns
missing when `lat1` or `lat2` is missing; otherwise hands the four
coordinates to the geodesic library. -/
def measure_distance (f : ℚ → ℚ → ℚ → ℚ → ℚ) (lat1 lon1 lat2 lon2 : Option ℚ) : Option ℚ :=
  if lat1.isNone || lat2.isNone then none
  else geoLib f lat1 lon1 lat2 lon2

/-- One uniform raw sample row as assembled by the parsers (columns
dtime, latt, long, elevation, distance, hr, cadence, speed, power,
temp).  `dtime` is in epoch seconds. -/
structure Sample where
  dtime : ℚ
  latt : Option ℚ := none
  long : Option ℚ := none
  elevation : Option ℚ := none
  distance : Option ℚ := none
  hr : Option ℚ := none
  cadence : Option ℚ := none
  speed : Option ℚ := none
  power : Option ℚ := none
  temp : Option ℚ := none
deriving DecidableEq, Repr

/-- One cleaned sample row.  The derived columns `duration`,
`mov_duration` and `movement` are modelled as fields that start at
placeholder values and are assigned by the corresponding pipeline
stage (the source inserts the columns at those points). -/
structure CRow where
  dtime : ℚ
  duration : ℚ := 0
  movDuration : ℕ := 0
  movement : Option ℚ := none
  latt : Option ℚ := none
  long : Option ℚ := none
  elevation : Option ℚ := none
  distance : Option ℚ := none
  hr : Option ℚ := none
  cadence : Option ℚ := none
  speed : Option ℚ := none
  power : Option ℚ := none
  temp : Option ℚ := none
deriving DecidableEq, Repr

/-- Failure modes of the modelled pipeline.  `noTime` is the
`assert raw_time` in `parse_fit_records`; `emptyInput` is the
`IndexError` that `df['distance'].iloc[0]` raises on an empty frame;
`noDistanceSource` is the `assert False, "Unable to calculate
distance..."`; `unknownSport` is the `KeyError` of the `sports`
lookup.  The spec groups the latter two as `ProcessingError`. -/
inductive ZError where
  | noTime
  | emptyInput
  | noDistanceSource
  | unknownSport
deriving DecidableEq, Repr

/-- Result of `_process_activity`: the cleaned rows and the
canonicalized sport written back into the metadata.  The summary
statistics the source also writes into `meta` (means, maxima,
elevation gain) are not modelled: no stated property concerns them. -/
structure ProcOut where
  rows : List CRow
  sport : String
deriving DecidableEq, Repr

/-- Clamping ceilings and the clamp step, source lines 669-684: each
numeric field is cast to float and clipped from above; latt, long and
distance are cast but not clipped. -/
def clampSample (s : Sample) : Sample :=
  { s with
    elevation := s.elevation.map (fun v => min v 9000)
    hr := s.hr.map (fun v => min v 250)
    power := s.power.map (fun v => min v 2500)
    cadence := s.cadence.map (fun v => min v 210)
    speed := s.speed.map (fun v => min v 100)
    temp := s.temp.map (fun v => min v 55) }

/-- Lift a raw sample into a cleaned-row record with the derived
columns still at their placeholder values. -/
def Sample.toCRow (s : Sample) : CRow :=
  { dtime := s.dtime, latt := s.latt, long := s.long, elevation := s.elevation,
    distance := s.distance, hr := s.hr, cadence := s.cadence, speed := s.speed,
    power := s.power, temp := s.temp }

/-- Clamped rows handed to the movement-reconciliation step. -/
def baseRows (samples : List Sample) : List CRow :=
  (samples.map clampSample).map Sample.toCRow

/-- Source lines 730-741: the fixed sport lookup table. -/
def sportsList : List (String × String) :=
  [(("biking"), ("cycling")),
   (("cycling"), ("cycling")),
   (("cycling_transportation"), ("cycling")),
   (("cycling_sport"), ("cycling")),
   (("ride"), ("cycling")),
   (("virtualride"), ("cycling")),
   (("virtualrun"), ("running")),
   (("run"), ("running")),
   (("running"), ("running")),
   (("other"), ("other"))]

/-- Sport canonicalization lookup; `none` models the `KeyError` raised
by `sports[meta['sport']]` for an unrecognized label. -/
def sportsTable (label : String) : Option String :=
  sportsList.lookup label

/-- First differences of the authoritative distance column in meters,
source line 698: `(df['distance'] * 1000).diff()`.  The first entry
and any difference touching a missing distance are missing. -/
def distDiffs (rows : List CRow) : List (Option ℚ) :=
  match rows with
  | [] => []
  | _ :: tail =>
      none ::
        List.zipWith
          (fun p c =>
            match p.distance, c.distance with
            | some a, some b => some (b * 1000 - a * 1000)
            | _, _ => none)
          rows tail

/-- Distance-authoritative branch (source lines 697-698): insert the
`movement` column as the first difference of `distance * 1000`. -/
def distanceBranch (rows : List CRow) : List CRow :=
  List.zipWith (fun r m => { r with movement := m }) rows (distDiffs rows)

/-- Per-sample geodesic movement (source lines 690-694): the shifted
previous coordinates paired with the current ones through
`measure_distance`; the first row has no predecessor. -/
def geoMoves (f : ℚ → ℚ → ℚ → ℚ → ℚ) (rows : List CRow) : List (Option ℚ) :=
  none ::
    List.zipWith
      (fun p c => measure_distance f p.latt p.long c.latt c.long)
      rows rows.tail

/-- GPS branch (source lines 690-696): movement is the geodesic
distance to the previous sample with missing values filled with 0
(`.fillna(0)`), and `distance` is rebuilt as
`movement.cumsum() / 1000`. -/
def gpsBranch (f : ℚ → ℚ → ℚ → ℚ → ℚ) (rows : List CRow) : List CRow :=
  let filled := (geoMoves f rows).map (fun o => o.getD 0)
  List.zipWith
    (fun r p => { r with movement := some p.1, distance := some (p.2 / 1000) })
    rows (filled.zip (cumsum filled))

/-- Movement reconciliation, source lines 686-698: if the first
sample's distance is missing and its latitude is also missing the
source hits `assert False, "Unable to calculate distance because GPS
coordinates are null"`; with a latitude present it takes the GPS
branch, otherwise the distance column is authoritative. -/
def movementStep (f : ℚ → ℚ → ℚ → ℚ → ℚ) (rows : List CRow) : Except ZError (List CRow) :=
  match rows with
  | [] => .ok []
  | b0 :: _ =>
      match b0.distance with
      | some _ => .ok (distanceBranch rows)
      | none =>
          match b0.latt with
          | none => .error .noDistanceSource
          | some _ => .ok (gpsBranch f rows)

/-- Source line 700: `df.loc[0, 'movement'] = df.loc[0, 'distance'] * 1000`. -/
def firstMovementFix (rows : List CRow) : List CRow :=
  match rows with
  | [] => []
  | r0 :: rest => { r0 with movement := r0.distance.map (fun d => d * 1000) } :: rest

/-- Source line 701: `df['movement'] = df['movement'].round(3)`. -/
def roundMovement (rows : List CRow) : List CRow :=
  rows.map (fun r => { r with movement := r.movement.map round3 })

/-- Maximum plausible movement per tick, source line 703:
`MAX_SPEED * 1000 / 3600` meters. -/
def maxMovement : ℚ := 100 * 1000 / 3600

/-- Source line 704: `df['movement'] = df['movement'].clip(upper=max_movement)`. -/
def clipMovement (rows : List CRow) : List CRow :=
  rows.map (fun r => { r with movement := r.movement.map (fun m => min m maxMovement) })

/-- Source lines 707-708: elapsed seconds since the first sample
(`(df['dtime'] - start_time).dt.total_seconds()`). -/
def addDuration (rows : List CRow) : List CRow :=
  match rows with
  | [] => []
  | r0 :: _ => rows.map (fun r => { r with duration := r.dtime - r0.dtime })

/-- Source lines 711-714: recompute speed as
`movement * 3600 / 1000 / tick_elapsed` where `tick_elapsed` is
`duration.diff().fillna(1)`, with infinities from a zero tick turned
into missing values and values above 100 capped.  A zero tick is
modelled as yielding a missing speed: in the source it gives `inf`
(replaced by `NaN`) or `NaN`; the `-inf` case for a negative movement
is also modelled as missing, which no stated property distinguishes. -/
def recomputeSpeed (rows : List CRow) : List CRow :=
  let ticks : List ℚ := 1 :: List.zipWith (fun p c => c.duration - p.duration) rows rows.tail
  List.zipWith
    (fun r t =>
      { r with
        speed :=
          (r.movement.bind
            (fun m => if t = 0 then none else some (m * 3600 / 1000 / t))).map
            (fun v => if 100 < v then 100 else v) })
    rows ticks

/-- Source lines 717-721: trailing rolling means for speed (window 3)
and power, hr, cadence, temp (window 2), each with `min_periods=1`. -/
def smooth (rows : List CRow) : List CRow :=
  let r1 := List.zipWith (fun x v => { x with speed := v }) rows (rollMean 3 (rows.map (fun r => r.speed)))
  let r2 := List.zipWith (fun x v => { x with power := v }) r1 (rollMean 2 (r1.map (fun r => r.power)))
  let r3 := List.zipWith (fun x v => { x with hr := v }) r2 (rollMean 2 (r2.map (fun r => r.hr)))
  let r4 := List.zipWith (fun x v => { x with cadence := v }) r3 (rollMean 2 (r3.map (fun r => r.cadence)))
  List.zipWith (fun x v => { x with temp := v }) r4 (rollMean 2 (r4.map (fun r => r.temp)))

/-- Retention test of the stationary-sample filter: pandas keeps a row
for `df['movement'] >= min_movement` only when the comparison is true,
and a comparison against `NaN` is false, so a missing movement is
dropped. -/
def movOkB (minKph : ℚ) (mv : Option ℚ) : Bool :=
  match mv with
  | some m => decide (minKph * 1000 / 3600 ≤ m)
  | none => false

/-- Source lines 724-725: `df = df[df['movement'] >= min_movement]`
with `min_movement = min_kph * 1000 / 3600`. -/
def removeStationary (minKph : ℚ) (rows : List CRow) : List CRow :=
  rows.filter (fun r => movOkB minKph r.movement)

/-- Source line 728: `df.insert(2, 'mov_duration', range(0, len(df)))`. -/
def addMovDurationAux (i : ℕ) : List CRow → List CRow
  | [] => []
  | r :: rest => { r with movDuration := i } :: addMovDurationAux (i + 1) rest

/-- Assign the 0-based retained-row index as the moving duration. -/
def addMovDuration (rows : List CRow) : List CRow :=
  addMovDurationAux 0 rows

/-- Source lines 783-786: rounding for storage (elevation and speed to
2 decimals, distance to 3). -/
def finalRound (r : CRow) : CRow :=
  { r with
    elevation := r.elevation.map round2
    distance := r.distance.map round3
    speed := r.speed.map round2 }

/-- Stages between movement reconciliation and the stationary filter,
in source order: first-movement fix (line 700), movement rounding
(701), movement clipping (704), duration (708), speed recomputation
(711-714), smoothing (717-721). -/
def preFilter (rows : List CRow) : List CRow :=
  smooth (recomputeSpeed (addDuration (clipMovement (roundMovement (firstMovementFix rows)))))

/-- Stages after movement reconciliation: the pre-filter pipeline, the
stationary filter (725), the moving-duration column (728) and the
storage rounding (783-786). -/
def postRows (minKph : ℚ) (rows : List CRow) : List CRow :=
  (addMovDuration (removeStationary minKph (preFilter rows))).map finalRound

/-- Source lines 664-788: `ZwiftTraining._process_activity`, with the
metadata reduced to the sport label (the only metadata field the
modelled steps read or that a stated property mentions).  An empty
frame raises `IndexError` at `df['distance'].iloc[0]`, modelled as
`emptyInput`.  The sport lookup error fires after movement
reconciliation, matching the source's statement order. -/
def _process_activity (f : ℚ → ℚ → ℚ → ℚ → ℚ) (minKph : ℚ)
    (samples : List Sample) (sport : String) : Except ZError ProcOut :=
  match samples with
  | [] => .error .emptyInput
  | _ :: _ =>
      match movementStep f (baseRows samples) with
      | .error e => .error e
      | .ok r1 =>
          match sportsTable sport with
          | none => .error .unknownSport
          | some canon => .ok ⟨postRows minKph r1, canon⟩

/-- Input row for the power-curve calculator: the `dtime` and `power`
columns of a stored activity.  `dtime` is never missing in stored
activities, so only `power` is optional. -/
structure PSample where
  dtime : ℚ
  power : Option ℚ := none
deriving DecidableEq, Repr

instance : Inhabited PSample := ⟨{ dtime := 0 }⟩

/-- Result of `calc_max_powers`: the activity timestamp plus one entry
per ladder duration; an entry's value is missing when no window of
that length is complete. -/
structure PCurve where
  dtime : ℚ
  entries : List (ℕ × Option ℚ)
deriving DecidableEq, Repr

/-- Source lines 639-646: the fixed ladder of window lengths, built
from the seven `range` calls. -/
def periods : List ℕ :=
  List.range' 1 29 1 ++ List.range' 30 6 5 ++ List.range' 60 6 10 ++
    List.range' 120 6 30 ++ List.range' 300 15 60 ++ List.range' 1200 20 300 ++
    List.range' 7200 61 600

/-- Source line 648: `df[['dtime', 'power']].dropna()` restricted to
the power column (`dtime` is never missing in the model). -/
def dropnaPowers (rows : List PSample) : List ℚ :=
  rows.filterMap (fun r => r.power)

/-- Source line 655: keep powers within `[MIN_POWER, MAX_POWER] = [20, 3000]`. -/
def filteredPowers (rows : List PSample) : List ℚ :=
  (dropnaPowers rows).filter (fun q => decide ((20 : ℚ) ≤ q) && decide (q ≤ 3000))

/-- Maximum trailing rolling average over windows of `p` samples,
mirroring `df['power'].rolling(p).mean().max()`: missing when no
window of length `p` is complete. -/
def rollingMeanMax (p : ℕ) (xs : List ℚ) : Option ℚ :=
  if xs.length < p ∨ p = 0 then none
  else ((List.range (xs.length - p + 1)).map (fun i => ((xs.drop i).take p).sum / p)).max?

/-- Rounding of a possibly-missing rolling maximum, `round(x, 1)`. -/
def round1Opt (x : Option ℚ) : Option ℚ := x.map round1

/-- Source lines 632-662: `ZwiftTraining.calc_max_powers`.  The Python
dict result is modelled as `Option PCurve`: `none` is the empty dict
returned when the input, the dropna result, or the power-bounds filter
result is empty.  The timestamp is read from the first row of the
original input before any filtering. -/
def calc_max_powers (rows : List PSample) : Option PCurve :=
  match rows with
  | [] => none
  | r0 :: _ =>
      if (dropnaPowers rows).isEmpty then none
      else if (filteredPowers rows).isEmpty then none
      else
        some ⟨r0.dtime,
          periods.map (fun p => (p, round1Opt (rollingMeanMax p (filteredPowers rows))))⟩

/-- Entries of a possibly-empty power-curve result. -/
def pcEntries (res : Option PCurve) : List (ℕ × Option ℚ) :=
  match res with
  | some c => c.entries
  | none => []

/-- Entry for one ladder duration: `none` when the result is empty or
the duration has no entry, `some v` when the entry exists with value `v`. -/
def pcEntry (res : Option PCurve) (p : ℕ) : Option (Option ℚ) :=
  (pcEntries res).lookup p

/-- Timestamp key of a possibly-empty power-curve result. -/
def pcDtime (res : Option PCurve) : Option ℚ :=
  match res with
  | some c => some c.dtime
  | none => none

/-- One decoded FIT record: a key-value mapping in which each field is
present (`some`) or absent.  `timestamp`/`time` distinguish the two
record shapes; the remaining fields follow the alias table of
`parse_fit_records` (lines 924-934). -/
structure FitRecord where
  timestamp : Option ℚ := none
  time : Option ℚ := none
  position_lat : Option ℚ := none
  lat : Option ℚ := none
  position_long : Option ℚ := none
  lng : Option ℚ := none
  altitude : Option ℚ := none
  distance : Option ℚ := none
  heart_rate : Option ℚ := none
  heartrate : Option ℚ := none
  cadence : Option ℚ := none
  speed : Option ℚ := none
  power : Option ℚ := none
  temperature : Option ℚ := none
deriving DecidableEq, Repr

/-- Source lines 923-943: build one uniform row from a FIT record,
first present key winning for each alias pair; `assert raw_time`
becomes the `noTime` error. -/
def fitToRow (r : FitRecord) : Except ZError Sample :=
  match r.timestamp.or r.time with
  | none => .error .noTime
  | some t =>
      .ok
        { dtime := t
          latt := r.position_lat.or r.lat
          long := r.position_long.or r.lng
          elevation := r.altitude
          distance := r.distance
          hr := r.heart_rate.or r.heartrate
          cadence := r.cadence
          speed := r.speed
          power := r.power
          temp := r.temperature }

/-- Row extraction over a whole record list, failing at the first
record with no time information. -/
def fitToRows : List FitRecord → Except ZError (List Sample)
  | [] => .ok []
  | r :: rest =>
      match fitToRow r, fitToRows rest with
      | .ok s, .ok ss => .ok (s :: ss)
      | .error e, _ => .error e
      | .ok _, .error e => .error e

/-- Source lines 966-969: when the latitude column leaves the valid
degree range, latitudes and longitudes are semicircle-encoded and are
rescaled by `180 / 2^31`. -/
def semicircleFix (rows : List Sample) : List Sample :=
  let latts := rows.map (fun s => s.latt)
  let hot :=
    (match optMax latts with
     | some v => decide (90 < v)
     | none => false) ||
    (match optMin latts with
     | some v => decide (v < -90)
     | none => false)
  if hot then
    rows.map (fun s =>
      { s with
        latt := s.latt.map (fun v => v * (180 / 2 ^ 31))
        long := s.long.map (fun v => v * (180 / 2 ^ 31)) })
  else rows

/-- Source lines 980-991: the distance-unit heuristic.  The maximum of
the accumulated distance column decides the unit: below 1000 the
column is left alone, below 1,000,000 it is divided by 1000 (meters),
otherwise by 100000 (centimeters); an all-missing column is left
alone. -/
def distanceFixWith (mo : Option ℚ) (rows : List Sample) : List Sample :=
  match mo with
  | none => rows
  | some m =>
      if m < 1000 then rows
      else if m < 1000000 then
        rows.map (fun s => { s with distance := s.distance.map (fun d => d / 1000) })
      else
        rows.map (fun s => { s with distance := s.distance.map (fun d => d / 100000) })

/-- Distance-unit heuristic dispatch on the column maximum
(`max_dist = df['distance'].max()`, line 981). -/
def distanceFix (rows : List Sample) : List Sample :=
  distanceFixWith (optMax (rows.map (fun s => s.distance))) rows

/-- Latitude gate of the shape-A adjustments (source lines 960-969):
the semicircle rescale runs only when the first latitude is present
(on-trainer Garmin files with a null first latitude skip it). -/
def semiGate (rows : List Sample) : List Sample :=
  match rows.head? with
  | some h => if h.latt = none then rows else semicircleFix rows
  | none => rows

/-- Row-building portion of `parse_fit_records` (source lines
919-999): extract uniform rows, shift times by the fixed +7h offset
(line 947), and, for shape-A files (first record carries a
`timestamp` key), apply the semicircle fix when the first latitude is
present and then the distance-unit heuristic; shape-B (`time` key,
Zwift) files need no adjustment. -/
def parseFitRows (records : List FitRecord) : Except ZError (List Sample) :=
  match fitToRows records with
  | .error e => .error e
  | .ok rows0 =>
      let rows := rows0.map (fun s => { s with dtime := s.dtime + 25200 })
      match records with
      | [] => .ok rows
      | r0 :: _ =>
          if r0.timestamp.isSome then .ok (distanceFix (semiGate rows))
          else .ok rows

/-- Source lines 1001-1006: sport heuristic for FIT files with no
sport in the metadata: cycling when any sample has power or more than
120 samples exceed 20 km/h, else running. -/
def fitInferSport (rows : List Sample) : String :=
  if rows.any (fun s => s.power.isSome) ||
      decide (120 <
        (rows.filter (fun s =>
          match s.speed with
          | some v => decide (20 < v)
          | none => false)).length) then
    "cycling"
  else "running"

/-- Full `parse_fit_records` on the modelled metadata: rows are built
and adjusted, the sport falls back to the heuristic when the caller
passed none, and the result is normalized by `_process_activity` with
the default `min_kph = 3`. -/
def parse_fit_records (f : ℚ → ℚ → ℚ → ℚ → ℚ) (records : List FitRecord)
    (metaSport : String) : Except ZError ProcOut :=
  match parseFitRows records with
  | .error e => .error e
  | .ok rows =>
      let sport := if metaSport = "" then fitInferSport rows else metaSport
      _process_activity f 3 rows sport

deriving instance DecidableEq for Except

/-- Boolean success test for the modelled fallible steps. -/
def exceptOk {ε α : Type} (e : Except ε α) : Bool :=
  match e with
  | .ok _ => true
  | .error _ => false

/-- Cleaned rows of a normalization result, `[]` on failure. -/
def cleanedRows (e : Except ZError ProcOut) : List CRow :=
  match e with
  | .ok o => o.rows
  | .error _ => []

/-- Movement-reconciliation rows of a normalization run, `[]` on failure. -/
def mRows (f : ℚ → ℚ → ℚ → ℚ → ℚ) (samples : List Sample) : List CRow :=
  match movementStep f (baseRows samples) with
  | .ok l => l
  | .error _ => []

/-- Distance column produced by the FIT row parser, `[]` on failure. -/
def fitDistCol (records : List FitRecord) : List (Option ℚ) :=
  match parseFitRows records with
  | .ok rows => rows.map (fun s => s.distance)
  | .error _ => []

/-- Trivial geodesic library stand-in used by concrete inputs whose
processing never consults coordinates. -/
def zeroGeo : ℚ → ℚ → ℚ → ℚ → ℚ := fun _ _ _ _ => 0

/-- A sample with every clampable field above its ceiling. -/
def bigSample : Sample :=
  { dtime := 0, elevation := some 10000, hr := some 300, cadence := some 300,
    speed := some 150, power := some 3000, temp := some 100 }

/-- Three 1 Hz samples with an authoritative distance column. -/
def wSamples : List Sample :=
  [{ dtime := 0, distance := some 0 },
   { dtime := 1, distance := some (1/20) },
   { dtime := 2, distance := some (1/10) }]

/-- Two 1 Hz samples whose second movement (50 m in one tick) exceeds
the per-tick movement cap. -/
def mmSamples : List Sample :=
  [{ dtime := 0, distance := some 0 },
   { dtime := 1, distance := some (1/20) }]

/-- The single cleaned row the normalizer emits for `mmSamples`. -/
def mmRow : CRow :=
  { dtime := 1, duration := 1, movDuration := 0, movement := some (100 * 1000 / 3600),
    distance := some (1/20), speed := some 50 }

/-- A sample with coordinates but no distance. -/
def gpsSamples : List Sample :=
  [{ dtime := 0, latt := some 1, long := some 1 }]

/-- A sample with neither distance nor coordinates. -/
def noFixSamples : List Sample := [{ dtime := 0 }]

/-- 100 consecutive 1 Hz samples at a constant 200 W. -/
def c100 : List PSample :=
  (List.range 100).map (fun i => { dtime := (i : ℚ), power := some 200 })

/-- Three power samples whose first row fails the power-bounds filter. -/
def w10 : List PSample :=
  [{ dtime := 0, power := some 10 },
   { dtime := 1, power := some 200 },
   { dtime := 2, power := some 200 }]

/-- Two shape-A FIT records whose distances (5000 and 600000) put the
column maximum into the meters band of the unit heuristic. -/
def fitRecsW : List FitRecord :=
  [{ timestamp := some 0, distance := some 5000 },
   { timestamp := some 1, distance := some 600000 }]

/-- A stationary row and a moving row. -/
def qRowA : CRow := { dtime := 0, movement := some 0 }

/-- A moving row comfortably above the 3 km/h threshold. -/
def qRowB : CRow := { dtime := 1, movement := some 10 }

theorem map_zipWith_self {α β γ : Type} {g : α → γ} {f : α → β → α}
    (h : ∀ a b, g (f a b) = g a) :
    ∀ (as : List α) (bs : List β), as.length ≤ bs.length →
      (List.zipWith f as bs).map g = as.map g := by
  intro as
  induction as with
  | nil => intro bs _; simp
  | cons a as ih =>
      intro bs hlen
      cases bs with
      | nil => simp at hlen
      | cons b bs =>
          simp only [List.zipWith_cons_cons, List.map_cons, h]
          rw [ih bs (by simpa using hlen)]

theorem zipWith_const_right {α β γ : Type} {k : β → γ} :
    ∀ (as : List α) (bs : List β), bs.length ≤ as.length →
      List.zipWith (fun _ b => k b) as bs = bs.map k := by
  intro as
  induction as with
  | nil => intro bs hlen; simp at hlen ⊢; simp [hlen]
  | cons a as ih =>
      intro bs hlen
      cases bs with
      | nil => simp
      | cons b bs =>
          simp only [List.zipWith_cons_cons, List.map_cons]
          rw [ih bs (by simpa using hlen)]

theorem length_cumsumAux (acc : ℚ) (l : List ℚ) : (cumsumAux acc l).length = l.length := by
  induction l generalizing acc with
  | nil => rfl
  | cons x rest ih => simp [cumsumAux, ih]

theorem length_cumsum (l : List ℚ) : (cumsum l).length = l.length :=
  length_cumsumAux 0 l

theorem length_rollMean (k : ℕ) (xs : List (Option ℚ)) :
    (rollMean k xs).length = xs.length := by
  simp [rollMean]

theorem length_distDiffs (rows : List CRow) : (distDiffs rows).length = rows.length := by
  cases rows with
  | nil => rfl
  | cons r tail => simp [distDiffs]

theorem length_geoMoves (f : ℚ → ℚ → ℚ → ℚ → ℚ) (rows : List CRow) :
    rows.length ≤ (geoMoves f rows).length := by
  cases rows with
  | nil => simp [geoMoves]
  | cons r tail => simp [geoMoves]

theorem col_distanceBranch {α : Type} (g : CRow → α)
    (h : ∀ r v, g { r with movement := v } = g r) (rows : List CRow) :
    (distanceBranch rows).map g = rows.map g := by
  exact map_zipWith_self h rows (distDiffs rows) (by rw [length_distDiffs])

theorem col_gpsBranch {α : Type} (g : CRow → α)
    (h : ∀ r a b, g { r with movement := a, distance := b } = g r)
    (f : ℚ → ℚ → ℚ → ℚ → ℚ) (rows : List CRow) :
    (gpsBranch f rows).map g = rows.map g := by
  refine map_zipWith_self (fun a b => h a _ _) rows _ ?_
  have h1 := length_geoMoves f rows
  simp only [List.length_zip, List.length_map, length_cumsum]
  omega

theorem col_movementStep {α : Type} (g : CRow → α)
    (h : ∀ r a b, g { r with movement := a, distance := b } = g r)
    (f : ℚ → ℚ → ℚ → ℚ → ℚ) {rows out : List CRow}
    (hok : movementStep f rows = .ok out) : out.map g = rows.map g := by
  have h1 : ∀ r (v : Option ℚ), g { r with movement := v } = g r := by
    intro r v
    have := h r v r.distance
    simpa using this
  cases rows with
  | nil => cases hok; rfl
  | cons b0 rest =>
      cases hd : b0.distance with
      | some d =>
          simp only [movementStep, hd] at hok
          cases hok
          exact col_distanceBranch g h1 _
      | none =>
          cases hl : b0.latt with
          | none => simp [movementStep, hd, hl] at hok
          | some v =>
              simp only [movementStep, hd, hl] at hok
              cases hok
              exact col_gpsBranch g h f _

theorem col_firstMovementFix {α : Type} (g : CRow → α)
    (h : ∀ r v, g { r with movement := v } = g r) (rows : List CRow) :
    (firstMovementFix rows).map g = rows.map g := by
  cases rows with
  | nil => rfl
  | cons r0 rest => simp [firstMovementFix, h]

theorem col_roundMovement {α : Type} (g : CRow → α)
    (h : ∀ r v, g { r with movement := v } = g r) (rows : List CRow) :
    (roundMovement rows).map g = rows.map g := by
  simp only [roundMovement, List.map_map]
  exact List.map_congr_left (fun r _ => h r _)

theorem col_clipMovement {α : Type} (g : CRow → α)
    (h : ∀ r v, g { r with movement := v } = g r) (rows : List CRow) :
    (clipMovement rows).map g = rows.map g := by
  simp only [clipMovement, List.map_map]
  exact List.map_congr_left (fun r _ => h r _)

theorem col_addDuration {α : Type} (g : CRow → α)
    (h : ∀ r v, g { r with duration := v } = g r) (rows : List CRow) :
    (addDuration rows).map g = rows.map g := by
  cases rows with
  | nil => rfl
  | cons r0 rest =>
      simp only [addDuration, List.map_map]
      exact List.map_congr_left (fun r _ => h r _)

theorem col_recomputeSpeed {α : Type} (g : CRow → α)
    (h : ∀ r v, g { r with speed := v } = g r) (rows : List CRow) :
    (recomputeSpeed rows).map g = rows.map g := by
  refine map_zipWith_self (fun a b => h a _) rows _ ?_
  cases rows with
  | nil => simp
  | cons r tail => simp

theorem col_smooth {α : Type} (g : CRow → α)
    (hs : ∀ r v, g { r with speed := v } = g r)
    (hp : ∀ r v, g { r with power := v } = g r)
    (hh : ∀ r v, g { r with hr := v } = g r)
    (hc : ∀ r v, g { r with cadence := v } = g r)
    (ht : ∀ r v, g { r with temp := v } = g r)
    (rows : List CRow) :
    (smooth rows).map g = rows.map g := by
  simp only [smooth]
  rw [map_zipWith_self (fun a b => ht a _) _ _ (by simp [length_rollMean]),
      map_zipWith_self (fun a b => hc a _) _ _ (by simp [length_rollMean]),
      map_zipWith_self (fun a b => hh a _) _ _ (by simp [length_rollMean]),
      map_zipWith_self (fun a b => hp a _) _ _ (by simp [length_rollMean]),
      map_zipWith_self (fun a b => hs a _) _ _ (by simp [length_rollMean])]

theorem col_addMovDurationAux {α : Type} (g : CRow → α)
    (h : ∀ r i, g { r with movDuration := i } = g r) :
    ∀ (i : ℕ) (rows : List CRow), (addMovDurationAux i rows).map g = rows.map g := by
  intro i rows
  induction rows generalizing i with
  | nil => rfl
  | cons r rest ih => simp [addMovDurationAux, h, ih]

theorem movDurCol_addMovDurationAux :
    ∀ (i : ℕ) (rows : List CRow),
      (addMovDurationAux i rows).map (fun r => r.movDuration) = List.range' i rows.length := by
  intro i rows
  induction rows generalizing i with
  | nil => rfl
  | cons r rest ih => simp [addMovDurationAux, ih, List.range']

theorem col_finalRoundMap {α : Type} (g : CRow → α)
    (h : ∀ r, g (finalRound r) = g r) (rows : List CRow) :
    (rows.map finalRound).map g = rows.map g := by
  simp only [List.map_map]
  exact List.map_congr_left (fun r _ => h r)

theorem lookup_snd_mem (ps : List (String × String)) {a b : String}
    (h : ps.lookup a = some b) : b ∈ ps.map Prod.snd := by
  induction ps with
  | nil => simp [List.lookup] at h
  | cons p t ih =>
      obtain ⟨k, v⟩ := p
      by_cases hak : a = k
      · subst hak
        simp [List.lookup] at h
        simp [h]
      · have hne : (a == k) = false := beq_false_of_ne hak
        simp only [List.lookup, hne] at h
        simpa using Or.inr (ih h)

theorem lookup_pair_map {l : List ℕ} {p : ℕ} (f : ℕ → Option ℚ) (hp : p ∈ l) :
    (l.map (fun q => (q, f q))).lookup p = some (f p) := by
  induction l with
  | nil => simp at hp
  | cons q t ih =>
      by_cases hpq : p = q
      · subst hpq
        simp [List.lookup]
      · have hne : (p == q) = false := beq_false_of_ne hpq
        simp only [List.map_cons, List.lookup, hne]
        exact ih (by simpa [hpq] using hp)

theorem drop_replicate (c : ℚ) : ∀ (i n : ℕ),
    (List.replicate n c).drop i = List.replicate (n - i) c := by
  intro i
  induction i with
  | zero => intro n; simp
  | succ i ih =>
      intro n
      cases n with
      | zero => simp
      | succ n =>
          rw [List.replicate_succ, List.drop_succ_cons, ih n,
            Nat.succ_sub_succ_eq_sub]

theorem take_replicate (c : ℚ) : ∀ (p n : ℕ),
    (List.replicate n c).take p = List.replicate (min p n) c := by
  intro p
  induction p with
  | zero => intro n; simp
  | succ p ih =>
      intro n
      cases n with
      | zero => simp
      | succ n =>
          simp only [List.replicate_succ, List.take_succ_cons, ih n]
          rw [Nat.succ_min_succ, List.replicate_succ]

theorem sum_replicate_rat (c : ℚ) : ∀ (n : ℕ), (List.replicate n c).sum = n * c := by
  intro n
  induction n with
  | zero => simp
  | succ n ih =>
      simp only [List.replicate_succ, List.sum_cons, ih]
      push_cast
      ring

theorem max?_replicate (c : ℚ) : ∀ (n : ℕ), 0 < n → (List.replicate n c).max? = some c := by
  intro n _
  cases n with
  | zero => omega
  | succ n =>
      rw [List.replicate_succ, List.max?_cons']
      congr 1
      induction n with
      | zero => simp
      | succ n ih => simpa [List.replicate_succ, max_self] using ih

theorem rollingMeanMax_replicate (c : ℚ) {p n : ℕ} (hp : 1 ≤ p) (hn : p ≤ n) :
    rollingMeanMax p (List.replicate n c) = some c := by
  have hlen : (List.replicate n c).length = n := List.length_replicate n c
  have hcond : ¬((List.replicate n c).length < p ∨ p = 0) := by
    rw [hlen]; omega
  rw [rollingMeanMax, if_neg hcond]
  have hwin : ∀ i ∈ List.range ((List.replicate n c).length - p + 1),
      (((List.replicate n c).drop i).take p).sum / (p : ℚ) = c := by
    intro i hi
    rw [List.mem_range, hlen] at hi
    rw [drop_replicate, take_replicate]
    have hmin : min p (n - i) = p := by omega
    rw [hmin, sum_replicate_rat]
    field_simp
  rw [List.map_congr_left hwin]
  simp only [List.map_const']
  exact max?_replicate c _ (by simp [hlen])

theorem round1_of_int (k : ℤ) : round1 ((k : ℚ)) = (k : ℚ) := by
  rw [round1]
  have : ((k : ℚ) * 10) = ((k * 10 : ℤ) : ℚ) := by push_cast; ring
  rw [this, round_intCast]
  push_cast
  field_simp

theorem calc_max_powers_eq {rows : List PSample}
    (hrows : rows ≠ []) (hne : filteredPowers rows ≠ []) :
    calc_max_powers rows =
      some ⟨rows.headI.dtime,
        periods.map (fun p => (p, round1Opt (rollingMeanMax p (filteredPowers rows))))⟩ := by
  cases rows with
  | nil => exact absurd rfl hrows
  | cons r0 rest =>
      have h1 : dropnaPowers (r0 :: rest) ≠ [] := by
        intro h
        exact hne (by simp [filteredPowers, h])
      simp only [calc_max_powers, List.headI]
      rw [if_neg (by simpa [List.isEmpty_iff] using h1),
        if_neg (by simpa [List.isEmpty_iff] using hne)]

theorem filteredPowers_c100 : filteredPowers c100 = List.replicate 100 200 := by
  decide

/-- Claim C7: for 100 consecutive 1 Hz samples at a constant 200 W
(inside the [20, 3000] W bounds), `calc_max_powers` reports, for every
ladder duration of at most 100 seconds, a maximum trailing
rolling-average power of exactly 200.0. -/
theorem c7_constant_power_curve (p : ℕ) (hp : p ∈ periods) (hple : p ≤ 100) :
    pcEntry (calc_max_powers c100) p = some (some 200) := by
  have hpos : 1 ≤ p := by
    have hall : ∀ q ∈ periods, 1 ≤ q := by decide
    exact hall p hp
  have hfil := filteredPowers_c100
  have hne : filteredPowers c100 ≠ [] := by
    rw [hfil]; simp
  have hne0 : c100 ≠ [] := by decide
  rw [pcEntry, calc_max_powers_eq hne0 hne]
  simp only [pcEntries]
  rw [lookup_pair_map _ hp, hfil, rollingMeanMax_replicate 200 hpos hple]
  rw [round1Opt, Option.map_some']
  rw [show ((200 : ℚ)) = (((200 : ℤ) : ℚ)) by norm_num, round1_of_int]

/-- Witness for C7 at the ladder duration 30 s. -/
theorem c7_constant_power_curve_witness :
    pcEntry (calc_max_powers c100) 30 = some (some 200) :=
  c7_constant_power_curve 30 (by decide) (by decide)

/-- Claim C10: with at least one power sample surviving the bounds
filter, the result has an entry for every ladder duration; every entry
whose duration exceeds the filtered sample count holds a missing
value, and the timestamp key comes from the first row of the original
input, even when that row is dropped by the filter. -/
theorem c10_power_curve_missing_entries (rows : List PSample) (r0 : PSample)
    (rest : List PSample) (n p : ℕ) (hrows : rows = r0 :: rest)
    (hne : filteredPowers rows ≠ []) (hn : (filteredPowers rows).length = n)
    (hp : p ∈ periods) (hgt : n < p) :
    (pcEntries (calc_max_powers rows)).map Prod.fst = periods ∧
    pcEntry (calc_max_powers rows) p = some none ∧
    pcDtime (calc_max_powers rows) = some r0.dtime := by
  subst hrows
  rw [pcEntry, calc_max_powers_eq (by simp) hne]
  simp only [pcEntries, pcDtime, List.headI]
  refine ⟨?_, ?_, by simp⟩
  · simp only [List.map_map]
    rw [show (Prod.fst ∘ fun q : ℕ =>
        (q, round1Opt (rollingMeanMax q (filteredPowers (r0 :: rest))))) =
        (fun q : ℕ => q) from rfl]
    exact List.map_id periods
  · rw [lookup_pair_map _ hp, rollingMeanMax, if_pos (Or.inl (by omega))]
    rfl

/-- Witness for C10: the first row carries power 10 W and is removed
by the bounds filter; two samples survive, so the 5 s entry is missing
while the timestamp is still the removed first row's. -/
theorem c10_power_curve_missing_entries_witness :
    (pcEntries (calc_max_powers w10)).map Prod.fst = periods ∧
    pcEntry (calc_max_powers w10) 5 = some none ∧
    pcDtime (calc_max_powers w10) = some 0 := by
  have h := c10_power_curve_missing_entries w10 { dtime := 0, power := some 10 }
    [{ dtime := 1, power := some 200 }, { dtime := 2, power := some 200 }] 2 5
    rfl (by decide) (by decide) (by decide) (by decide)
  exact h

/-- Claim C3: each clamped field of `_process_activity`'s clamp step
is capped at its documented ceiling (elevation 9000 m, heart rate 250
bpm, power 2500 W, cadence 210 rpm, speed 100 km/h, temperature 55
degrees C), never exceeds the input value, and a value above the
ceiling is capped to the ceiling rather than discarded. -/
theorem c3_clamp_ceilings (s : Sample) :
    (∀ w, s.elevation = some w →
      (clampSample s).elevation = some (min w 9000) ∧ min w 9000 ≤ 9000 ∧
        min w 9000 ≤ w ∧ (9000 ≤ w → (clampSample s).elevation = some 9000)) ∧
    (∀ w, s.hr = some w →
      (clampSample s).hr = some (min w 250) ∧ min w 250 ≤ 250 ∧
        min w 250 ≤ w ∧ (250 ≤ w → (clampSample s).hr = some 250)) ∧
    (∀ w, s.power = some w →
      (clampSample s).power = some (min w 2500) ∧ min w 2500 ≤ 2500 ∧
        min w 2500 ≤ w ∧ (2500 ≤ w → (clampSample s).power = some 2500)) ∧
    (∀ w, s.cadence = some w →
      (clampSample s).cadence = some (min w 210) ∧ min w 210 ≤ 210 ∧
        min w 210 ≤ w ∧ (210 ≤ w → (clampSample s).cadence = some 210)) ∧
    (∀ w, s.speed = some w →
      (clampSample s).speed = some (min w 100) ∧ min w 100 ≤ 100 ∧
        min w 100 ≤ w ∧ (100 ≤ w → (clampSample s).speed = some 100)) ∧
    (∀ w, s.temp = some w →
      (clampSample s).temp = some (min w 55) ∧ min w 55 ≤ 55 ∧
        min w 55 ≤ w ∧ (55 ≤ w → (clampSample s).temp = some 55)) := by
  refine ⟨?_, ?_, ?_, ?_, ?_, ?_⟩ <;>
    · intro w hw
      refine ⟨by simp [clampSample, hw], min_le_right _ _, min_le_left _ _, ?_⟩
      intro hge
      simp [clampSample, hw, min_eq_right hge]

/-- Witness for C3: a sample with every clampable field above its
ceiling is capped to the ceilings. -/
theorem c3_clamp_ceilings_witness :
    (clampSample bigSample).elevation = some 9000 ∧
    (clampSample bigSample).hr = some 250 ∧
    (clampSample bigSample).power = some 2500 ∧
    (clampSample bigSample).cadence = some 210 ∧
    (clampSample bigSample).speed = some 100 ∧
    (clampSample bigSample).temp = some 55 := by
  have h := c3_clamp_ceilings bigSample
  exact ⟨(h.1 10000 rfl).2.2.2 (by norm_num),
    (h.2.1 300 rfl).2.2.2 (by norm_num),
    (h.2.2.1 3000 rfl).2.2.2 (by norm_num),
    (h.2.2.2.1 300 rfl).2.2.2 (by norm_num),
    (h.2.2.2.2.1 150 rfl).2.2.2 (by norm_num),
    (h.2.2.2.2.2 100 rfl).2.2.2 (by norm_num)⟩

/-- Claim C5: the sport lookup maps each recognized label (among them
virtualride, biking, ride) into the canonical set, virtualride going
to cycling; an unrecognized label such as unicycling has no entry and
makes `_process_activity` fail with the sport-canonicalization error. -/
theorem c5_sport_canonicalization :
    sportsTable ("virtualride") = some ("cycling") ∧
    sportsTable ("biking") = some ("cycling") ∧
    sportsTable ("ride") = some ("cycling") ∧
    (∀ l c, sportsTable l = some c →
      c = "cycling" ∨ c = "running" ∨ c = "other") ∧
    sportsTable ("unicycling") = none ∧
    (∀ (f : ℚ → ℚ → ℚ → ℚ → ℚ) (minKph : ℚ) (samples : List Sample) (sport : String),
      sportsTable sport = none →
      exceptOk (_process_activity f minKph samples sport) = false) := by
  refine ⟨by decide, by decide, by decide, ?_, by decide, ?_⟩
  · intro l c h
    have hmem := lookup_snd_mem sportsList h
    simp only [sportsList, List.map_cons, List.map_nil, List.mem_cons,
      List.not_mem_nil, or_false] at hmem
    tauto
  · intro f minKph samples sport hno
    cases samples with
    | nil => rfl
    | cons s0 rest =>
        cases hm : movementStep f (baseRows (s0 :: rest)) with
        | error e => simp [_process_activity, hm, exceptOk]
        | ok r1 => simp [_process_activity, hm, hno, exceptOk]

/-- Witness for C5: normalizing a one-sample activity labelled
unicycling fails. -/
theorem c5_sport_canonicalization_witness :
    exceptOk (_process_activity zeroGeo 3 wSamples ("unicycling")) = false :=
  c5_sport_canonicalization.2.2.2.2.2 zeroGeo 3 wSamples ("unicycling") (by decide)

/-- Claim C8: `measure_distance` yields a missing value whenever any
of the four coordinate components is missing.  A missing latitude is
rejected by the function's own guard; a missing longitude reaches the
geodesic library, where it behaves as NaN and propagates (modelled in
`geoLib`).  Statelessness holds by construction: the model is a plain
function of its four arguments and the library parameter. -/
theorem c8_measure_distance_missing (f : ℚ → ℚ → ℚ → ℚ → ℚ)
    (lat1 lon1 lat2 lon2 : Option ℚ)
    (h : lat1 = none ∨ lon1 = none ∨ lat2 = none ∨ lon2 = none) :
    measure_distance f lat1 lon1 lat2 lon2 = none := by
  cases lat1 <;> cases lon1 <;> cases lat2 <;> cases lon2 <;>
    simp_all [measure_distance, geoLib]

/-- Witness for C8: a missing first longitude alone produces a missing
distance. -/
theorem c8_measure_distance_missing_witness :
    measure_distance zeroGeo (some 1) none (some 2) (some 3) = none :=
  c8_measure_distance_missing zeroGeo (some 1) none (some 2) (some 3)
    (Or.inr (Or.inl rfl))

theorem fitToRow_distance {r : FitRecord} {s : Sample} (h : fitToRow r = .ok s) :
    s.distance = r.distance := by
  unfold fitToRow at h
  split at h
  · exact absurd h (by simp)
  · injection h with h'
    rw [← h']

theorem fitToRows_distances :
    ∀ {records : List FitRecord} {rows0 : List Sample},
      fitToRows records = .ok rows0 →
      rows0.map (fun s => s.distance) = records.map (fun r => r.distance) := by
  intro records
  induction records with
  | nil =>
      intro rows0 h
      cases h
      rfl
  | cons r rest ih =>
      intro rows0 h
      simp only [fitToRows] at h
      cases hr : fitToRow r with
      | error e => rw [hr] at h; cases h
      | ok srow =>
          cases hrest : fitToRows rest with
          | error e => rw [hr, hrest] at h; cases h
          | ok srows =>
              rw [hr, hrest] at h
              injection h with h'
              rw [← h']
              simp only [List.map_cons, fitToRow_distance hr, ih hrest]

theorem distCol_mapShift (l : List Sample) :
    ((l.map (fun s => { s with dtime := s.dtime + 25200 })).map (fun s => s.distance)) =
      l.map (fun s => s.distance) := by
  simp only [List.map_map]
  exact List.map_congr_left (fun s _ => rfl)

theorem distCol_semicircleFix (l : List Sample) :
    (semicircleFix l).map (fun s => s.distance) = l.map (fun s => s.distance) := by
  simp only [semicircleFix]
  split
  · simp only [List.map_map]
    exact List.map_congr_left (fun s _ => rfl)
  · rfl

theorem distCol_mapDiv (g : ℚ → ℚ) (l : List Sample) :
    ((l.map (fun s => { s with distance := s.distance.map g })).map (fun s => s.distance)) =
      (l.map (fun s => s.distance)).map (Option.map g) := by
  simp only [List.map_map]
  exact List.map_congr_left (fun s _ => rfl)

theorem distCol_semiGate (l : List Sample) :
    (semiGate l).map (fun s => s.distance) = l.map (fun s => s.distance) := by
  cases l with
  | nil => rfl
  | cons a t =>
      by_cases hl : a.latt = none
      · simp [semiGate, hl]
      · simp [semiGate, hl, distCol_semicircleFix]

/-- Claim C1: for a shape-A FIT record list (first record carries a
timestamp key) that parses successfully and whose distance column has
a defined maximum `m`, the unit heuristic of `parse_fit_records`
leaves every distance unchanged when `m < 1000`, divides every
distance by exactly 1000 when `1000 ≤ m < 1000000`, and divides every
distance by exactly 100000 otherwise. -/
theorem c1_fit_distance_unit (records : List FitRecord) (r0 : FitRecord)
    (rest : List FitRecord) (m : ℚ)
    (hrec : records = r0 :: rest) (hshape : r0.timestamp.isSome)
    (hmax : optMax (records.map (fun r => r.distance)) = some m)
    (hok : exceptOk (parseFitRows records) = true) :
    (m < 1000 → fitDistCol records = records.map (fun r => r.distance)) ∧
    (1000 ≤ m → m < 1000000 →
      fitDistCol records = records.map (fun r => r.distance.map (fun d => d / 1000))) ∧
    (1000000 ≤ m →
      fitDistCol records = records.map (fun r => r.distance.map (fun d => d / 100000))) := by
  subst hrec
  cases hrows0 : fitToRows (r0 :: rest) with
  | error e =>
      rw [parseFitRows, hrows0] at hok
      simp [exceptOk] at hok
  | ok rows0 =>
      have hd0 := fitToRows_distances hrows0
      have hparse : parseFitRows (r0 :: rest) =
          .ok (distanceFix
            (semiGate (rows0.map (fun s => { s with dtime := s.dtime + 25200 })))) := by
        rw [parseFitRows, hrows0]
        simp only [hshape, if_pos]
      have hd1 :
          (semiGate (rows0.map (fun s => { s with dtime := s.dtime + 25200 }))).map
              (fun s => s.distance) =
            (r0 :: rest).map (fun r => r.distance) := by
        rw [distCol_semiGate, distCol_mapShift, hd0]
      rw [fitDistCol, hparse]
      have hmax1 :
          optMax ((semiGate (rows0.map (fun s => { s with dtime := s.dtime + 25200 }))).map
            (fun s => s.distance)) = some m := by
        rw [hd1]; exact hmax
      rw [distanceFix, hmax1]
      simp only [distanceFixWith]
      refine ⟨?_, ?_, ?_⟩
      · intro hlt
        rw [if_pos hlt, hd1]
      · intro hge hlt2
        rw [if_neg (not_lt.mpr hge), if_pos hlt2, distCol_mapDiv, hd1, List.map_map]
        exact List.map_congr_left (fun r _ => rfl)
      · intro hge2
        rw [if_neg (not_lt.mpr (by linarith)), if_neg (not_lt.mpr hge2), distCol_mapDiv,
          hd1, List.map_map]
        exact List.map_congr_left (fun r _ => rfl)

unseal Rat.add Rat.sub Rat.mul Rat.inv in
/-- Witness for C1: distances 5000 and 600000 are read as meters and
divided by exactly 1000. -/
theorem c1_fit_distance_unit_witness : fitDistCol fitRecsW = [some 5, some 600] := by
  have h := (c1_fit_distance_unit fitRecsW { timestamp := some 0, distance := some 5000 }
    [{ timestamp := some 1, distance := some 600000 }] 600000 rfl (by decide) (by decide)
    (by decide)).2.1 (by norm_num) (by norm_num)
  rw [h]
  decide

theorem movCol_roundMovement (rows : List CRow) :
    (roundMovement rows).map (fun r => r.movement) =
      (rows.map (fun r => r.movement)).map (fun mv => mv.map round3) := by
  simp only [roundMovement, List.map_map]
  exact List.map_congr_left (fun r _ => rfl)

theorem movCol_clipMovement (rows : List CRow) :
    (clipMovement rows).map (fun r => r.movement) =
      (rows.map (fun r => r.movement)).map (fun mv => mv.map (fun m => min m maxMovement)) := by
  simp only [clipMovement, List.map_map]
  exact List.map_congr_left (fun r _ => rfl)

theorem durCol_addDuration (r0 : CRow) (rest : List CRow) :
    (addDuration (r0 :: rest)).map (fun r => r.duration) =
      ((r0 :: rest).map (fun r => r.dtime)).map (fun q => q - r0.dtime) := by
  simp only [addDuration, List.map_map]
  exact List.map_congr_left (fun r _ => rfl)

theorem length_addMovDurationAux :
    ∀ (i : ℕ) (rows : List CRow), (addMovDurationAux i rows).length = rows.length := by
  intro i rows
  induction rows generalizing i with
  | nil => rfl
  | cons r rest ih => simp [addMovDurationAux, ih]

theorem mem_addMovDurationAux :
    ∀ {i : ℕ} {rows : List CRow} {r : CRow}, r ∈ addMovDurationAux i rows →
      ∃ r2, r2 ∈ rows ∧ r.movement = r2.movement := by
  intro i rows
  induction rows generalizing i with
  | nil => intro r h; simp [addMovDurationAux] at h
  | cons a rest ih =>
      intro r h
      simp only [addMovDurationAux, List.mem_cons] at h
      rcases h with h | h
      · exact ⟨a, List.mem_cons_self a rest, by rw [h]⟩
      · obtain ⟨r2, hr2, hmv⟩ := ih h
        exact ⟨r2, List.mem_cons_of_mem a hr2, hmv⟩

theorem baseRows_dtimes (samples : List Sample) :
    (baseRows samples).map (fun r => r.dtime) = samples.map (fun s => s.dtime) := by
  simp only [baseRows, List.map_map]
  exact List.map_congr_left (fun s _ => rfl)

/-- Claim C2: when the raw timestamps are non-decreasing and
normalization succeeds, the cleaned rows have a non-decreasing
duration column and the mov_duration column equals the 0-based row
index. -/
theorem c2_duration_monotone (f : ℚ → ℚ → ℚ → ℚ → ℚ) (minKph : ℚ)
    (samples : List Sample) (sport : String)
    (hmono : List.Pairwise (fun a b => a ≤ b) (samples.map (fun s => s.dtime)))
    (hok : exceptOk (_process_activity f minKph samples sport) = true) :
    List.Pairwise (fun a b => a ≤ b)
      ((cleanedRows (_process_activity f minKph samples sport)).map (fun r => r.duration)) ∧
    (cleanedRows (_process_activity f minKph samples sport)).map (fun r => r.movDuration) =
      List.range (cleanedRows (_process_activity f minKph samples sport)).length := by
  cases samples with
  | nil => simp [_process_activity, exceptOk] at hok
  | cons s0 rest =>
      cases hm : movementStep f (baseRows (s0 :: rest)) with
      | error e => simp [_process_activity, hm, exceptOk] at hok
      | ok r1 =>
          cases hsp : sportsTable sport with
          | none => simp [_process_activity, hm, hsp, exceptOk] at hok
          | some canon =>
              have hclean : cleanedRows (_process_activity f minKph (s0 :: rest) sport) =
                  postRows minKph r1 := by
                simp [_process_activity, hm, hsp, cleanedRows]
              rw [hclean]
              have hdt1 : r1.map (fun r => r.dtime) = (s0 :: rest).map (fun s => s.dtime) := by
                rw [col_movementStep (fun r => r.dtime) (fun r a b => rfl) f hm, baseRows_dtimes]
              set l1 := clipMovement (roundMovement (firstMovementFix r1)) with hl1
              have hdt2 : l1.map (fun r => r.dtime) = (s0 :: rest).map (fun s => s.dtime) := by
                rw [hl1, col_clipMovement (fun r => r.dtime) (fun r v => rfl),
                  col_roundMovement (fun r => r.dtime) (fun r v => rfl),
                  col_firstMovementFix (fun r => r.dtime) (fun r v => rfl), hdt1]
              obtain ⟨m0, mrest, hl1cons⟩ : ∃ m0 mrest, l1 = m0 :: mrest := by
                cases hc : l1 with
                | nil => rw [hc] at hdt2; simp at hdt2
                | cons a b => exact ⟨a, b, rfl⟩
              have hm0 : m0.dtime = s0.dtime := by
                rw [hl1cons, List.map_cons, List.map_cons] at hdt2
                injection hdt2
              have hdurPre : (preFilter r1).map (fun r => r.duration) =
                  ((s0 :: rest).map (fun s => s.dtime)).map (fun q => q - s0.dtime) := by
                rw [preFilter, ← hl1,
                  col_smooth (fun r => r.duration) (fun r v => rfl) (fun r v => rfl)
                    (fun r v => rfl) (fun r v => rfl) (fun r v => rfl),
                  col_recomputeSpeed (fun r => r.duration) (fun r v => rfl), hl1cons,
                  durCol_addDuration, hm0]
                rw [← hl1cons, hdt2]
              have hpw : List.Pairwise (fun a b => a ≤ b)
                  ((preFilter r1).map (fun r => r.duration)) := by
                rw [hdurPre]
                exact hmono.map _ (fun a b hab => sub_le_sub_right hab s0.dtime)
              have hsubl : ((removeStationary minKph (preFilter r1)).map
                    (fun r => r.duration)).Sublist
                  ((preFilter r1).map (fun r => r.duration)) :=
                (List.filter_sublist _).map _
              constructor
              · rw [postRows, addMovDuration,
                  col_finalRoundMap (fun r => r.duration) (fun r => rfl),
                  col_addMovDurationAux (fun r => r.duration) (fun r i => rfl)]
                exact hpw.sublist hsubl
              · rw [postRows, addMovDuration,
                  col_finalRoundMap (fun r => r.movDuration) (fun r => rfl),
                  movDurCol_addMovDurationAux, List.length_map, length_addMovDurationAux,
                  List.range_eq_range']

unseal Rat.add Rat.sub Rat.mul Rat.inv in
/-- Witness for C2 on three 1 Hz samples with an authoritative
distance column. -/
theorem c2_duration_monotone_witness :
    List.Pairwise (fun a b => a ≤ b)
      ((cleanedRows (_process_activity zeroGeo 3 wSamples ("ride"))).map
        (fun r => r.duration)) ∧
    (cleanedRows (_process_activity zeroGeo 3 wSamples ("ride"))).map
        (fun r => r.movDuration) =
      List.range (cleanedRows (_process_activity zeroGeo 3 wSamples ("ride"))).length :=
  c2_duration_monotone zeroGeo 3 wSamples ("ride") (by decide) (by decide)

/-- Claim C9: the stationary-sample filter keeps a row exactly when
its movement is a non-missing value at least the threshold
`min_kph * 1000 / 3600`; in particular rows with missing movement are
dropped, and every row of a successful normalization result satisfies
the retention test. -/
theorem c9_stationary_filter :
    (∀ (minKph : ℚ) (rows : List CRow) (r : CRow), r ∈ rows →
      (r ∈ removeStationary minKph rows ↔ movOkB minKph r.movement = true)) ∧
    (∀ (minKph : ℚ) (mv : Option ℚ), movOkB minKph mv = true ↔
      ∃ m, mv = some m ∧ minKph * 1000 / 3600 ≤ m) ∧
    (∀ (f : ℚ → ℚ → ℚ → ℚ → ℚ) (minKph : ℚ) (samples : List Sample) (sport : String)
      (r : CRow), r ∈ cleanedRows (_process_activity f minKph samples sport) →
      movOkB minKph r.movement = true) := by
  refine ⟨?_, ?_, ?_⟩
  · intro minKph rows r hmem
    constructor
    · intro h
      exact (List.mem_filter.mp h).2
    · intro h
      exact List.mem_filter.mpr ⟨hmem, h⟩
  · intro minKph mv
    cases mv with
    | none => simp [movOkB]
    | some m => simp [movOkB]
  · intro f minKph samples sport r hr
    cases samples with
    | nil => simp [_process_activity, cleanedRows] at hr
    | cons s0 rest =>
        cases hm : movementStep f (baseRows (s0 :: rest)) with
        | error e => simp [_process_activity, hm, cleanedRows] at hr
        | ok r1 =>
            cases hsp : sportsTable sport with
            | none => simp [_process_activity, hm, hsp, cleanedRows] at hr
            | some canon =>
                have hclean : cleanedRows (_process_activity f minKph (s0 :: rest) sport) =
                    postRows minKph r1 := by
                  simp [_process_activity, hm, hsp, cleanedRows]
                rw [hclean, postRows, addMovDuration] at hr
                obtain ⟨r2, hr2, rfl⟩ := List.mem_map.mp hr
                obtain ⟨r3, hr3, hmv⟩ := mem_addMovDurationAux hr2
                have hkeep := (List.mem_filter.mp hr3).2
                have : movOkB minKph (finalRound r2).movement = movOkB minKph r2.movement := rfl
                rw [this, hmv]
                exact hkeep

unseal Rat.add Rat.sub Rat.mul Rat.inv in
/-- Witness for C9: a moving row passes the retention test inside a
two-row frame, and the single row surviving normalization of
`mmSamples` satisfies it. -/
theorem c9_stationary_filter_witness :
    (qRowB ∈ removeStationary 3 [qRowA, qRowB] ↔ movOkB 3 qRowB.movement = true) ∧
    movOkB 3 mmRow.movement = true :=
  ⟨c9_stationary_filter.1 3 [qRowA, qRowB] qRowB (by decide),
   c9_stationary_filter.2.2 zeroGeo 3 mmSamples ("ride") mmRow (by decide)⟩

theorem movCol_preFilter (r1 : List CRow) :
    (preFilter r1).map (fun r => r.movement) =
      (((firstMovementFix r1).map (fun r => r.movement)).map (fun x => x.map round3)).map
        (fun x => x.map (fun v => min v maxMovement)) := by
  rw [preFilter,
    col_smooth (fun r => r.movement) (fun r v => rfl) (fun r v => rfl) (fun r v => rfl)
      (fun r v => rfl) (fun r v => rfl),
    col_recomputeSpeed (fun r => r.movement) (fun r v => rfl),
    col_addDuration (fun r => r.movement) (fun r v => rfl),
    movCol_clipMovement, movCol_roundMovement]

unseal Rat.add Rat.sub Rat.mul Rat.inv in
/-- Counterexample to C6 as stated: a 50 m movement in one tick is
first rounded, then clamped to `100 * 1000 / 3600` m, a value that is
not a whole number of millimeters, so the emitted movement is not at
millimeter precision. -/
theorem c6_movement_mm_counterexample :
    (cleanedRows (_process_activity zeroGeo 3 mmSamples ("ride"))).map
        (fun r => r.movement) = [some maxMovement] ∧
    ¬((maxMovement * 1000).den = 1) := by
  refine ⟨by decide, by decide⟩

/-- Claim C6 as amended: every movement value emitted by the
normalizer is at most the per-tick cap `100 * 1000 / 3600` m derived
from the speed ceiling, and is either a whole number of millimeters
(the millimeter rounding happens before clamping) or equal to the cap
exactly. -/
theorem c6_movement_clamp_amended (f : ℚ → ℚ → ℚ → ℚ → ℚ) (minKph : ℚ)
    (samples : List Sample) (sport : String) (r : CRow) (m : ℚ)
    (hr : r ∈ cleanedRows (_process_activity f minKph samples sport))
    (hmov : r.movement = some m) :
    m ≤ maxMovement ∧ ((m * 1000).den = 1 ∨ m = maxMovement) := by
  cases samples with
  | nil => simp [_process_activity, cleanedRows] at hr
  | cons s0 rest =>
      cases hms : movementStep f (baseRows (s0 :: rest)) with
      | error e => simp [_process_activity, hms, cleanedRows] at hr
      | ok r1 =>
          cases hsp : sportsTable sport with
          | none => simp [_process_activity, hms, hsp, cleanedRows] at hr
          | some canon =>
              have hclean : cleanedRows (_process_activity f minKph (s0 :: rest) sport) =
                  postRows minKph r1 := by
                simp [_process_activity, hms, hsp, cleanedRows]
              rw [hclean, postRows, addMovDuration] at hr
              obtain ⟨r2, hr2, rfl⟩ := List.mem_map.mp hr
              obtain ⟨r3, hr3, hmv23⟩ := mem_addMovDurationAux hr2
              have hr3pre : r3 ∈ preFilter r1 := (List.mem_filter.mp hr3).1
              have hmem : r3.movement ∈ (preFilter r1).map (fun r => r.movement) :=
                List.mem_map_of_mem _ hr3pre
              rw [movCol_preFilter] at hmem
              obtain ⟨y, hy, hy2⟩ := List.mem_map.mp hmem
              obtain ⟨x, hx, rfl⟩ := List.mem_map.mp hy
              have hmval : (finalRound r2).movement = r3.movement := hmv23
              rw [hmov] at hmval
              rw [← hy2] at hmval
              cases hx0 : x with
              | none => rw [hx0] at hmval; simp at hmval
              | some x0 =>
                  rw [hx0] at hmval
                  simp only [Option.map_some'] at hmval
                  have hm : m = min (round3 x0) maxMovement := Option.some.inj hmval
                  constructor
                  · rw [hm]; exact min_le_right _ _
                  · rcases le_total (round3 x0) maxMovement with hle | hle
                    · left
                      rw [hm, min_eq_left hle, round3,
                        div_mul_cancel₀ _ (by norm_num : (1000 : ℚ) ≠ 0)]
                      exact Rat.den_intCast _
                    · right
                      rw [hm, min_eq_right hle]

unseal Rat.add Rat.sub Rat.mul Rat.inv in
/-- Witness for the amended C6: the clamped movement of the `mmSamples`
run is at the cap, satisfying the amended property through its second
disjunct. -/
theorem c6_movement_clamp_amended_witness :
    (100 * 1000 / 3600 : ℚ) ≤ maxMovement ∧
    (((100 * 1000 / 3600 : ℚ) * 1000).den = 1 ∨ (100 * 1000 / 3600 : ℚ) = maxMovement) :=
  c6_movement_clamp_amended zeroGeo 3 mmSamples ("ride") mmRow (100 * 1000 / 3600)
    (by decide) rfl

theorem length_geoMoves_of_ne (f : ℚ → ℚ → ℚ → ℚ → ℚ) {l : List CRow} (h : l ≠ []) :
    (geoMoves f l).length = l.length := by
  cases l with
  | nil => exact absurd rfl h
  | cons a t => simp [geoMoves]

theorem movCol_gpsBranch (f : ℚ → ℚ → ℚ → ℚ → ℚ) {l : List CRow} (h : l ≠ []) :
    (gpsBranch f l).map (fun r => r.movement) =
      ((geoMoves f l).map (fun o => o.getD 0)).map some := by
  have hlen : (geoMoves f l).length = l.length := length_geoMoves_of_ne f h
  simp only [gpsBranch]
  rw [List.map_zipWith]
  rw [show (fun (a : CRow) (b : ℚ × ℚ) =>
      ({ a with movement := some b.1, distance := some (b.2 / 1000) } : CRow).movement) =
      (fun (_ : CRow) (b : ℚ × ℚ) => some b.1) from rfl]
  rw [zipWith_const_right l _ (by simp [List.length_zip, length_cumsum, hlen])]
  rw [show (fun b : ℚ × ℚ => some b.1) = (some ∘ Prod.fst) from rfl, ← List.map_map]
  rw [List.map_fst_zip _ _ (by simp [length_cumsum])]

theorem distCol_gpsBranch (f : ℚ → ℚ → ℚ → ℚ → ℚ) {l : List CRow} (h : l ≠ []) :
    (gpsBranch f l).map (fun r => r.distance) =
      (cumsum ((geoMoves f l).map (fun o => o.getD 0))).map (fun q => some (q / 1000)) := by
  have hlen : (geoMoves f l).length = l.length := length_geoMoves_of_ne f h
  simp only [gpsBranch]
  rw [List.map_zipWith]
  rw [show (fun (a : CRow) (b : ℚ × ℚ) =>
      ({ a with movement := some b.1, distance := some (b.2 / 1000) } : CRow).distance) =
      (fun (_ : CRow) (b : ℚ × ℚ) => some (b.2 / 1000)) from rfl]
  rw [zipWith_const_right l _ (by simp [List.length_zip, length_cumsum, hlen])]
  rw [show (fun b : ℚ × ℚ => some (b.2 / 1000)) =
      ((fun q : ℚ => some (q / 1000)) ∘ Prod.snd) from rfl, ← List.map_map]
  rw [List.map_snd_zip _ _ (by simp [length_cumsum])]

theorem geoMoves_baseRows (f : ℚ → ℚ → ℚ → ℚ → ℚ) (samples : List Sample) :
    geoMoves f (baseRows samples) =
      none :: List.zipWith (fun p c => measure_distance f p.latt p.long c.latt c.long)
        samples samples.tail := by
  rw [geoMoves, baseRows, List.map_map]
  congr 1
  rw [← List.map_tail, List.zipWith_map]
  rfl

unseal Rat.add Rat.sub Rat.mul Rat.inv in
/-- Counterexample to C4 as stated: a first sample with coordinates
and no distance still makes the normalizer raise when the sport label
is unrecognized, so the distance-derivation branch alone does not
guarantee freedom from errors. -/
theorem c4_distance_counterexample :
    _process_activity zeroGeo 3 gpsSamples ("unicycling") = .error .unknownSport := by
  decide

/-- Claim C4 as amended: with the first distance missing, a missing
first latitude is the hard distance failure; with a latitude present
the movement column is the geodesic distance between consecutive
coordinates (missing filled with 0) and the distance column is its
running sum divided by 1000, and normalization succeeds provided the
sport label is recognized (an unrecognized label still raises the
sport-canonicalization error). -/
theorem c4_distance_derivation_amended (f : ℚ → ℚ → ℚ → ℚ → ℚ) (minKph : ℚ)
    (samples : List Sample) (sport : String) (s0 : Sample) (rest : List Sample)
    (hs : samples = s0 :: rest) (hdist : s0.distance = none) :
    (s0.latt = none →
      _process_activity f minKph samples sport = .error .noDistanceSource) ∧
    (s0.latt ≠ none → (sportsTable sport).isSome = true →
      exceptOk (_process_activity f minKph samples sport) = true) ∧
    (s0.latt ≠ none →
      (mRows f samples).map (fun r => r.movement) =
        ((none :: List.zipWith (fun p c => measure_distance f p.latt p.long c.latt c.long)
          samples samples.tail).map (fun o => some (o.getD 0))) ∧
      (mRows f samples).map (fun r => r.distance) =
        (cumsum ((none :: List.zipWith
            (fun p c => measure_distance f p.latt p.long c.latt c.long)
            samples samples.tail).map (fun o => o.getD 0))).map
          (fun q => some (q / 1000))) := by
  subst hs
  have hbase : baseRows (s0 :: rest) =
      Sample.toCRow (clampSample s0) :: baseRows rest := rfl
  have hd0 : (Sample.toCRow (clampSample s0)).distance = none := hdist
  refine ⟨?_, ?_, ?_⟩
  · intro hlatt
    have hl0 : (Sample.toCRow (clampSample s0)).latt = none := hlatt
    simp [_process_activity, hbase, movementStep, hd0, hl0]
  · intro hlatt hsport
    obtain ⟨lv, hlv⟩ := Option.ne_none_iff_exists'.mp hlatt
    have hl0 : (Sample.toCRow (clampSample s0)).latt = some lv := hlv
    obtain ⟨canon, hc⟩ := Option.isSome_iff_exists.mp hsport
    simp [_process_activity, hbase, movementStep, hd0, hl0, hc, exceptOk]
  · intro hlatt
    obtain ⟨lv, hlv⟩ := Option.ne_none_iff_exists'.mp hlatt
    have hl0 : (Sample.toCRow (clampSample s0)).latt = some lv := hlv
    have hstep : movementStep f (baseRows (s0 :: rest)) =
        .ok (gpsBranch f (baseRows (s0 :: rest))) := by
      rw [hbase, movementStep, hd0, hl0]
    have hmr : mRows f (s0 :: rest) = gpsBranch f (baseRows (s0 :: rest)) := by
      simp [mRows, hstep]
    have hne : baseRows (s0 :: rest) ≠ [] := by rw [hbase]; simp
    constructor
    · rw [hmr, movCol_gpsBranch f hne, geoMoves_baseRows]
      simp [List.map_map, Function.comp]
    · rw [hmr, distCol_gpsBranch f hne, geoMoves_baseRows]

unseal Rat.add Rat.sub Rat.mul Rat.inv in
/-- Witness for the amended C4: the missing-coordinates case fails
with the distance error, and a first sample with coordinates and a
recognized sport normalizes without error. -/
theorem c4_distance_derivation_amended_witness :
    (_process_activity zeroGeo 3 noFixSamples ("ride") = .error .noDistanceSource) ∧
    exceptOk (_process_activity zeroGeo 3 gpsSamples ("ride")) = true :=
  ⟨(c4_distance_derivation_amended zeroGeo 3 noFixSamples ("ride") { dtime := 0 } []
      rfl rfl).1 rfl,
   (c4_distance_derivation_amended zeroGeo 3 gpsSamples ("ride")
      { dtime := 0, latt := some 1, long := some 1 } [] rfl rfl).2.1
      (by decide) (by decide)⟩
